import Mathlib

-- Verification of the icdm2020 bias-in-recommender-systems toolkit.
-- The notebooks are embedded shallowly: pandas tables become lists of
-- structures, NaN-able columns become Option values, and the notebook
-- cell logic becomes pure Lean functions over those lists.

namespace ICDM

/-- A raw interaction row of the dataset table
(`user_id, item_id, rating, timestamp, type_id`). -/
structure Row where
  user_id : Nat
  item_id : Nat
  rating : ℚ
  timestamp : Nat
  type_id : Nat
  deriving DecidableEq

/-- A row of the provider-gender association CSV
(`item_id, gender_1, gender_2`), where either fraction may be missing
(NaN in the source, `none` here). -/
structure AssocRow where
  item_id : Nat
  gender_1 : Option ℚ
  gender_2 : Option ℚ
  deriving DecidableEq

/-- A row of the association table after the Group Representation
Estimator has added the `minority` and `majority` columns. -/
structure GIARow where
  item_id : Nat
  minority : ℚ
  majority : ℚ
  deriving DecidableEq

/-- `lambda x: 1.0 if math.isnan(x) else x` applied to the `gender_1`
column (notebook 03, provider-fairness, line 218). -/
def applyMinorityDefault (x : Option ℚ) : ℚ :=
  match x with
  | none => 1
  | some v => v

/-- `lambda x: 0.0 if math.isnan(x) else x` applied to the `gender_2`
column (notebook 03, provider-fairness, line 219). -/
def applyMajorityDefault (x : Option ℚ) : ℚ :=
  match x with
  | none => 0
  | some v => v

/-- One row of the estimator output: `minority` from `gender_1`,
`majority` from `gender_2`, with the NaN defaults above. -/
def estimateRow (a : AssocRow) : GIARow :=
  { item_id := a.item_id
    minority := applyMinorityDefault a.gender_1
    majority := applyMajorityDefault a.gender_2 }

/-- The whole `gender_item_association` table after the two `apply`
calls and the deletion of the raw `gender_1` / `gender_2` columns. -/
def genderItemAssociation (tbl : List AssocRow) : List GIARow :=
  tbl.map estimateRow

/-- `pd.merge(data, gender_item_association, on='item_id')`: an inner
join that pairs every interaction with every association row carrying
the same `item_id`, and drops interactions with no match. -/
def mergeOnItem (data : List Row) (gia : List GIARow) : List (Row × GIARow) :=
  data.flatMap (fun r =>
    (gia.filter (fun g => decide (g.item_id = r.item_id))).map (fun g => (r, g)))

/-- Insertion step of a Bool-comparator insertion sort (used to model
`DataFrame.sort_values` and sorted categorical codes). -/
def insertBy (le : α → α → Bool) (a : α) : List α → List α
  | [] => [a]
  | b :: l => if le a b then a :: b :: l else b :: insertBy le a l

/-- Bool-comparator insertion sort. -/
def sortBy (le : α → α → Bool) : List α → List α
  | [] => []
  | a :: l => insertBy le a (sortBy le l)

/-- `sorted_group = group.sort_values(time_field)`. -/
def sortByTime (l : List Row) : List Row :=
  sortBy (fun a b => decide (a.timestamp ≤ b.timestamp)) l

/-- `n_rating_test = int(len(sorted_group.index) * (1.0 - split))`:
the number of most-recent interactions sent to the test set. -/
def nRatingTest (n : Nat) (split : ℚ) : Nat :=
  (⌊(n : ℚ) * (1 - split)⌋).toNat

/-- The rows of table `t` belonging to user `u`
(one group of `interactions.groupby([user_field])`). -/
def rowsOf (t : List Row) (u : Nat) : List Row :=
  t.filter (fun r => decide (r.user_id = u))

/-- The distinct user ids of `t` in ascending order (the keys of the
pandas `groupby`, which sorts group keys). -/
def userIds (t : List Row) : List Nat :=
  sortBy (fun a b => decide (a ≤ b)) (t.map Row.user_id).dedup

/-- Users that survive the splitter: those with at least `minSamples`
interactions (`if len(group.index) < min_samples: continue`). -/
def keptUsers (t : List Row) (minSamples : Nat) : List Nat :=
  (userIds t).filter (fun u => decide (minSamples ≤ (rowsOf t u).length))

/-- The per-user split: sort by timestamp, send the first
`n - n_rating_test` rows to train (`head`) and the last `n_rating_test`
rows to test (`tail`). -/
def splitUser (rows : List Row) (split : ℚ) : List Row × List Row :=
  let sorted := sortByTime rows
  let nTest := nRatingTest rows.length split
  (sorted.take (sorted.length - nTest), sorted.drop (sorted.length - nTest))

/-- Concatenation of the per-user train chunks
(`train = pd.concat(train_set)`). -/
def trainRows (t : List Row) (split : ℚ) (minS : Nat) : List Row :=
  (keptUsers t minS).flatMap (fun u => (splitUser (rowsOf t u) split).1)

/-- Concatenation of the per-user test chunks
(`test = pd.concat(test_set)`). -/
def testRows (t : List Row) (split : ℚ) (minS : Nat) : List Row :=
  (keptUsers t minS).flatMap (fun u => (splitUser (rowsOf t u) split).2)

/-- `traintest = pd.concat([train, test])` with the `set` column
already attached to each side. -/
def taggedRows (t : List Row) (split : ℚ) (minS : Nat) : List (Row × String) :=
  (trainRows t split minS).map (fun r => (r, "train")) ++
    (testRows t split minS).map (fun r => (r, "test"))

/-- The distinct values of a column in ascending order: the categories
of `astype('category')`. -/
def sortedUnique (vals : List Nat) : List Nat :=
  sortBy (fun a b => decide (a ≤ b)) vals.dedup

/-- `astype('category').cat.codes` for one value: its index among the
sorted distinct values of the column. -/
def catCode (vals : List Nat) (v : Nat) : Nat :=
  (sortedUnique vals).indexOf v

/-- A row of the persisted train/test split artifact: the interaction
fields with remapped ids, the `set` tag, and the preserved original
ids. -/
structure SplitRow where
  user_id : Nat
  item_id : Nat
  rating : ℚ
  timestamp : Nat
  type_id : Nat
  set : String
  user_id_original : Nat
  item_id_original : Nat
  deriving DecidableEq

/-- `user_timestamp(interactions, split, min_samples, ...)`: the
time-based per-user splitter of `model_setup.ipynb`.  When no user
reaches `min_samples`, the source raises (`pd.concat` of an empty list,
or a `NameError` on an empty table); here that is an `Except.error`. -/
def user_timestamp (t : List Row) (split : ℚ) (minS : Nat) :
    Except String (List SplitRow) :=
  if keptUsers t minS = [] then
    .error "objects to concatenate is empty"
  else
    let tagged := taggedRows t split minS
    let us := tagged.map (fun p => p.1.user_id)
    let its := tagged.map (fun p => p.1.item_id)
    .ok (tagged.map (fun p =>
      { user_id := catCode us p.1.user_id
        item_id := catCode its p.1.item_id
        rating := p.1.rating
        timestamp := p.1.timestamp
        type_id := p.1.type_id
        set := p.2
        user_id_original := p.1.user_id
        item_id_original := p.1.item_id }))

/-- The rows surviving `drop_duplicates(subset=['item_id'], keep='first')`:
a row is kept when its `item_id` was not seen in an earlier row.  The
`seen` accumulator holds the item ids already encountered. -/
def dropDupByItem : List SplitRow → List Nat → List SplitRow
  | [], _ => []
  | r :: rs, seen =>
    if r.item_id ∈ seen then dropDupByItem rs seen
    else r :: dropDupByItem rs (r.item_id :: seen)

/-- `category_per_item = traintest.drop_duplicates(subset=['item_id'],
keep='first')[type_field].values`: the per-item category vector, in
first-occurrence order of the items. -/
def category_per_item (traintest : List SplitRow) : List Nat :=
  (dropDupByItem traintest []).map SplitRow.type_id

/-- Modelled from the spec: the upsampling modes `real`, `fake` and
`fakeByPop` live in `helpers/instances_upsampler.py`, which is not under
`src/`.  The spec describes them as append-only transforms: the output
is the original training rows followed by the selected duplicate rows,
here abstracted by the duplicate list `dups`. -/
def upsampleAppend (t dups : List Row) : List Row :=
  t ++ dups

/-- `train['rating'] = 1.0` (notebook 03, `run_with_upsampling`): every
row of the augmented training set gets rating 1.0. -/
def setRatingOne (t : List Row) : List Row :=
  t.map (fun r => { r with rating := 1 })

/-- The training-data path of `run_with_upsampling`: upsample, then
overwrite the whole `rating` column with 1.0. -/
def run_with_upsampling_train (t dups : List Row) : List Row :=
  setRatingOne (upsampleAppend t dups)

/-- Modelled from the spec: the model lifecycle of `models/model.py`
(not under `src/`): Uninitialized, Trained, Predicted, Evaluated. -/
inductive ModelState
  | uninitialized
  | trained
  | predicted
  | evaluated
  deriving DecidableEq

/-- Modelled from the spec: the state carried by a recommendation model
object: its lifecycle state, the user and item latent vectors, the
held-out test interactions (user, item) and the artifacts produced by
`predict` and `test`. -/
structure Model where
  state : ModelState
  userEmb : List (List ℚ)
  itemEmb : List (List ℚ)
  testSet : List (Nat × Nat)
  predictions : Option (List (List ℚ))
  metricsBag : Option (List (List ℚ))

/-- A freshly constructed model: no predictions, no metrics. -/
def Model.init (uE iE : List (List ℚ)) (ts : List (Nat × Nat)) : Model :=
  { state := .uninitialized
    userEmb := uE
    itemEmb := iE
    testSet := ts
    predictions := none
    metricsBag := none }

/-- Dot product of two embedding vectors (the prediction contract:
`score = dot(user_vector, item_vector)`). -/
def dot (u v : List ℚ) : ℚ :=
  ((u.zip v).map (fun p => p.1 * p.2)).sum

/-- The dense user-item relevance matrix scored from the embeddings. -/
def predMatrix (m : Model) : List (List ℚ) :=
  m.userEmb.map (fun ue => m.itemEmb.map (fun ie => dot ue ie))

/-- Modelled from the spec: `train()` moves Uninitialized/Trained to
Trained and fails from any other state. -/
def Model.train (m : Model) : Except String Model :=
  if m.state = .uninitialized ∨ m.state = .trained then
    .ok { m with state := .trained }
  else
    .error "train: unsupported model state"

/-- Modelled from the spec: `predict()` requires a Trained model,
produces the relevance matrix and moves to Predicted; called earlier it
fails fast with a state-precondition error. -/
def Model.predict (m : Model) : Except String Model :=
  if m.state = .trained then
    .ok { m with state := .predicted, predictions := some (predMatrix m) }
  else
    .error "predict: the model must be trained first"

/-- The held-out test items of one user. -/
def testItemsOf (m : Model) (u : Nat) : List Nat :=
  (m.testSet.filter (fun p => decide (p.1 = u))).map (fun p => p.2)

/-- The top-`k` item ids of one score row, highest score first
(`np.argsort(scores)[::-1][:k]`). -/
def topkOf (scores : List ℚ) (k : Nat) : List Nat :=
  ((sortBy (fun a b => decide (b.2 ≤ a.2)) scores.enum).map Prod.fst).take k

/-- Modelled from the spec: NDCG@k against the binary relevance of the
user's test items, normalized by the ideal DCG, and 0 when the user has
no test items.  The rank-discount function `disc` is a parameter (the
spec leaves its exact form open). -/
def ndcgWith (disc : Nat → ℚ) (ranked : List Nat) (testIts : List Nat)
    (k : Nat) : ℚ :=
  if testIts.isEmpty then 0
  else
    let rels := (ranked.take k).map (fun i => if i ∈ testIts then (1 : ℚ) else 0)
    let dcgVal := (rels.enum.map (fun p => p.2 * disc p.1)).sum
    let idcgVal := ((List.range (min k testIts.length)).map disc).sum
    if idcgVal = 0 then 0 else dcgVal / idcgVal

/-- Modelled from the spec: the `ndcg` entry of the metrics bag, a
matrix indexed by cutoff then user. -/
def metricsOf (disc : Nat → ℚ) (m : Model) (cutoffs : List Nat) :
    List (List ℚ) :=
  let preds := m.predictions.getD []
  cutoffs.map (fun k =>
    preds.enum.map (fun p => ndcgWith disc (topkOf p.2 k) (testItemsOf m p.1) k))

/-- Modelled from the spec: `test()` requires a Predicted model,
computes the metrics and moves to Evaluated; called earlier it fails
fast with a state-precondition error. -/
def Model.test (m : Model) (disc : Nat → ℚ) (cutoffs : List Nat) :
    Except String Model :=
  if m.state = .predicted then
    .ok { m with state := .evaluated,
                 metricsBag := some (metricsOf disc m cutoffs) }
  else
    .error "test: the model must have predictions first"

/-- First-maximum argmax: returns the earliest element of the list
whose value under `f` is maximal. -/
def argmaxBy (f : Nat → ℚ) : List Nat → Option Nat
  | [] => none
  | x :: xs =>
    match argmaxBy f xs with
    | none => some x
    | some y => if f x < f y then some y else some x

/-- Modelled from the spec: one greedy step of the xQuad-style
re-ranker (`models/ranker_xquad.py`, not under `src/`): among the
remaining candidates, pick the one maximizing
`(1 − λ)·relevance + λ·diversity`, where the diversity term may depend
on the items already chosen. -/
def xquadSelect (lmbda : ℚ) (rel : Nat → ℚ) (dv : List Nat → Nat → ℚ)
    (chosen : List Nat) (cands : List Nat) : Option Nat :=
  argmaxBy (fun c => (1 - lmbda) * rel c + lmbda * dv chosen c) cands

/-- Modelled from the spec: the xQuad-style greedy re-ranker: starting
from the relevance-ordered candidate pool, repeatedly select the best
remaining candidate and append it to the output list, `k` times. -/
def rerank (lmbda : ℚ) (rel : Nat → ℚ) (dv : List Nat → Nat → ℚ) :
    Nat → List Nat → List Nat → List Nat
  | 0, _, chosen => chosen
  | k + 1, cands, chosen =>
    match xquadSelect lmbda rel dv chosen cands with
    | none => chosen
    | some c => rerank lmbda rel dv k (cands.erase c) (chosen ++ [c])

/-- A five-interaction, one-user table exercising the splitter. -/
def W3t : List Row :=
  [{ user_id := 0, item_id := 2, rating := 3, timestamp := 5, type_id := 0 },
   { user_id := 0, item_id := 0, rating := 4, timestamp := 1, type_id := 0 },
   { user_id := 0, item_id := 4, rating := 5, timestamp := 9, type_id := 0 },
   { user_id := 0, item_id := 1, rating := 2, timestamp := 3, type_id := 0 },
   { user_id := 0, item_id := 3, rating := 1, timestamp := 7, type_id := 0 }]

/-- An interaction of user 3 with item 20 (category 7) at time 0. -/
def C9r0 : Row :=
  { user_id := 3, item_id := 20, rating := 5, timestamp := 0, type_id := 7 }

/-- An interaction of user 3 with item 10 (category 9) at time 1. -/
def C9r1 : Row :=
  { user_id := 3, item_id := 10, rating := 4, timestamp := 1, type_id := 9 }

/-- A two-interaction table whose user views the item with the larger
original id (hence the larger dense code) first. -/
def C9raw : List Row :=
  [C9r0, C9r1]

/-- The split artifact produced by `user_timestamp C9raw 0.5 2`. -/
def C9out : List SplitRow :=
  [{ user_id := 0, item_id := 1, rating := 5, timestamp := 0, type_id := 7,
     set := "train", user_id_original := 3, item_id_original := 20 },
   { user_id := 0, item_id := 0, rating := 4, timestamp := 1, type_id := 9,
     set := "test", user_id_original := 3, item_id_original := 10 }]

/-- The first row of `C9out`. -/
def C9sr0 : SplitRow :=
  { user_id := 0, item_id := 1, rating := 5, timestamp := 0, type_id := 7,
    set := "train", user_id_original := 3, item_id_original := 20 }

/-- A one-row table: its only user has a single interaction. -/
def W10t : List Row :=
  [{ user_id := 0, item_id := 0, rating := 1, timestamp := 0, type_id := 0 }]

/-- An association table with one item whose `gender_1` is missing. -/
def W8tbl : List AssocRow :=
  [{ item_id := 10, gender_1 := none, gender_2 := some 0 }]


/-- The association row of item 10, with `gender_1` missing. -/
def W8a : AssocRow :=
  { item_id := 10, gender_1 := none, gender_2 := some 0 }

/-- An interaction with item 10, which is present in `W8tbl`. -/
def W8r0 : Row :=
  { user_id := 1, item_id := 10, rating := 5, timestamp := 0, type_id := 0 }

/-- Two interactions: item 10 is in `W8tbl`, item 11 is not. -/
def W8data : List Row :=
  [W8r0,
   { user_id := 1, item_id := 11, rating := 5, timestamp := 0, type_id := 0 }]

/-- An original training row carrying an explicit 5-star rating. -/
def C2row : Row :=
  { user_id := 0, item_id := 0, rating := 5, timestamp := 0, type_id := 0 }

/-- Concrete relevance scores for the re-ranker witness: item 0 most
relevant, then 1, then 2. -/
def W5rel : Nat → ℚ :=
  fun n => ([5, 4, 3] : List ℚ).getD n 0

/-- An arbitrary diversity term for the re-ranker witness. -/
def W5dv : List Nat → Nat → ℚ :=
  fun _ _ => 2

/-- Descending-relevance order under `W5rel`. -/
abbrev W5ge : Nat → Nat → Prop :=
  fun a b => W5rel b ≤ W5rel a

theorem perm_insertBy (le : α → α → Bool) (a : α) (l : List α) :
    List.Perm (insertBy le a l) (a :: l) := by
  induction l with
  | nil => simp [insertBy]
  | cons b l ih =>
    cases hab : le a b with
    | true => simp [insertBy, hab]
    | false =>
      simp only [insertBy, hab, Bool.false_eq_true, if_false]
      exact (ih.cons b).trans (List.Perm.swap a b l)

theorem perm_sortBy (le : α → α → Bool) (l : List α) :
    List.Perm (sortBy le l) l := by
  induction l with
  | nil => simp [sortBy]
  | cons a l ih => exact (perm_insertBy le a (sortBy le l)).trans (ih.cons a)

theorem mem_sortBy (le : α → α → Bool) (l : List α) (a : α) :
    a ∈ sortBy le l ↔ a ∈ l :=
  (perm_sortBy le l).mem_iff

theorem length_sortBy (le : α → α → Bool) (l : List α) :
    (sortBy le l).length = l.length :=
  (perm_sortBy le l).length_eq

theorem nodup_sortBy (le : α → α → Bool) {l : List α} (h : l.Nodup) :
    (sortBy le l).Nodup :=
  (perm_sortBy le l).symm.nodup h

theorem pairwise_insertBy (le : α → α → Bool)
    (htr : ∀ a b c, le a b = true → le b c = true → le a c = true)
    (hto : ∀ a b, le a b = true ∨ le b a = true)
    (a : α) {l : List α} (h : l.Pairwise (fun x y => le x y = true)) :
    (insertBy le a l).Pairwise (fun x y => le x y = true) := by
  induction l with
  | nil => simp [insertBy]
  | cons b l ih =>
    rcases List.pairwise_cons.mp h with ⟨hb, hl⟩
    cases hab : le a b with
    | true =>
      simp only [insertBy, hab, if_true]
      refine List.pairwise_cons.mpr ⟨?_, h⟩
      intro x hx
      rcases List.mem_cons.mp hx with rfl | hx2
      · exact hab
      · exact htr a b x hab (hb x hx2)
    | false =>
      simp only [insertBy, hab, Bool.false_eq_true, if_false]
      refine List.pairwise_cons.mpr ⟨?_, ih hl⟩
      intro x hx
      rcases List.mem_cons.mp ((perm_insertBy le a l).mem_iff.mp hx) with rfl | hx2
      · rcases hto x b with hxb | hbx
        · cases hab ▸ hxb
        · exact hbx
      · exact hb x hx2

theorem pairwise_sortBy (le : α → α → Bool)
    (htr : ∀ a b c, le a b = true → le b c = true → le a c = true)
    (hto : ∀ a b, le a b = true ∨ le b a = true) (l : List α) :
    (sortBy le l).Pairwise (fun x y => le x y = true) := by
  induction l with
  | nil => simp [sortBy]
  | cons a l ih => exact pairwise_insertBy le htr hto a ih

theorem sortByTime_pairwise (l : List Row) :
    (sortByTime l).Pairwise (fun a b => a.timestamp ≤ b.timestamp) := by
  have h := pairwise_sortBy (fun a b : Row => decide (a.timestamp ≤ b.timestamp))
    (fun a b c hab hbc =>
      decide_eq_true (Nat.le_trans (of_decide_eq_true hab) (of_decide_eq_true hbc)))
    (fun a b => (Nat.le_total a.timestamp b.timestamp).imp decide_eq_true decide_eq_true)
    l
  exact h.imp (fun hd => of_decide_eq_true hd)

theorem perm_sortByTime (l : List Row) : List.Perm (sortByTime l) l :=
  perm_sortBy _ l

theorem filter_flatMap_eq (l : List α) (f : α → List β) (p : β → Bool) :
    (l.flatMap f).filter p = l.flatMap (fun a => (f a).filter p) := by
  induction l with
  | nil => rfl
  | cons a l ih => simp [List.flatMap_cons, List.filter_append, ih]

theorem mem_rowsOf {t : List Row} {u : Nat} {r : Row} (h : r ∈ rowsOf t u) :
    r ∈ t ∧ r.user_id = u := by
  rcases List.mem_filter.mp h with ⟨h1, h2⟩
  exact ⟨h1, of_decide_eq_true h2⟩

theorem rowsOf_eq_nil {x : List Row} {u : Nat} (h : ∀ r ∈ x, r.user_id ≠ u) :
    rowsOf x u = [] := by
  rw [rowsOf, List.filter_eq_nil_iff]
  intro r hr
  simpa using h r hr

theorem rowsOf_eq_self {x : List Row} {u : Nat} (h : ∀ r ∈ x, r.user_id = u) :
    rowsOf x u = x := by
  rw [rowsOf, List.filter_eq_self]
  intro r hr
  exact decide_eq_true (h r hr)

theorem rowsOf_flatMap (l : List Nat) (g : Nat → List Row)
    (hg : ∀ v ∈ l, ∀ r ∈ g v, r.user_id = v) (hnd : l.Nodup) (u : Nat) :
    rowsOf (l.flatMap g) u = if u ∈ l then g u else [] := by
  induction l with
  | nil => simp [rowsOf]
  | cons a l ih =>
    rcases List.nodup_cons.mp hnd with ⟨ha, hnd2⟩
    have hg2 : ∀ v ∈ l, ∀ r ∈ g v, r.user_id = v :=
      fun v hv => hg v (List.mem_cons_of_mem a hv)
    have hsplit : rowsOf ((a :: l).flatMap g) u = rowsOf (g a) u ++ rowsOf (l.flatMap g) u := by
      rw [List.flatMap_cons, rowsOf, List.filter_append]
      rfl
    by_cases hu : u = a
    · subst hu
      have h1 : rowsOf (g u) u = g u :=
        rowsOf_eq_self (hg u (List.mem_cons_self u l))
      have h2 : rowsOf (l.flatMap g) u = [] := by
        rw [ih hg2 hnd2, if_neg ha]
      rw [hsplit, h1, h2, List.append_nil, if_pos (List.mem_cons_self u l)]
    · have h1 : rowsOf (g a) u = [] := by
        apply rowsOf_eq_nil
        intro r hr
        rw [hg a (List.mem_cons_self a l) r hr]
        exact fun he => hu he.symm
      have h2 : (u ∈ a :: l) ↔ (u ∈ l) := by
        simp [List.mem_cons, fun he : u = a => hu he]
      rw [hsplit, h1, List.nil_append, ih hg2 hnd2]
      by_cases hul : u ∈ l
      · rw [if_pos hul, if_pos (h2.mpr hul)]
      · rw [if_neg hul, if_neg (fun hc => hul (h2.mp hc))]

theorem nodup_userIds (t : List Row) : (userIds t).Nodup :=
  nodup_sortBy _ (List.nodup_dedup _)

theorem nodup_keptUsers (t : List Row) (minS : Nat) : (keptUsers t minS).Nodup :=
  (nodup_userIds t).filter _

theorem mem_keptUsers {t : List Row} {minS u : Nat} :
    u ∈ keptUsers t minS ↔
      u ∈ t.map Row.user_id ∧ minS ≤ (rowsOf t u).length := by
  rw [keptUsers, List.mem_filter, userIds, mem_sortBy, List.mem_dedup]
  constructor
  · exact fun h => ⟨h.1, of_decide_eq_true h.2⟩
  · exact fun h => ⟨h.1, decide_eq_true h.2⟩

theorem mem_splitUser_fst {rows : List Row} {split : ℚ} {r : Row}
    (h : r ∈ (splitUser rows split).1) : r ∈ rows := by
  simp only [splitUser] at h
  exact (mem_sortBy _ rows r).mp (List.take_subset _ _ h)

theorem mem_splitUser_snd {rows : List Row} {split : ℚ} {r : Row}
    (h : r ∈ (splitUser rows split).2) : r ∈ rows := by
  simp only [splitUser] at h
  exact (mem_sortBy _ rows r).mp (List.drop_subset _ _ h)

theorem rowsOf_trainRows (t : List Row) (split : ℚ) (minS : Nat) (u : Nat) :
    rowsOf (trainRows t split minS) u =
      if u ∈ keptUsers t minS then (splitUser (rowsOf t u) split).1 else [] := by
  rw [trainRows]
  apply rowsOf_flatMap
  · intro v _ r hr
    exact (mem_rowsOf (mem_splitUser_fst hr)).2
  · exact nodup_keptUsers t minS

theorem rowsOf_testRows (t : List Row) (split : ℚ) (minS : Nat) (u : Nat) :
    rowsOf (testRows t split minS) u =
      if u ∈ keptUsers t minS then (splitUser (rowsOf t u) split).2 else [] := by
  rw [testRows]
  apply rowsOf_flatMap
  · intro v _ r hr
    exact (mem_rowsOf (mem_splitUser_snd hr)).2
  · exact nodup_keptUsers t minS

theorem nRatingTest_le (n : Nat) {split : ℚ} (h0 : 0 ≤ split) :
    nRatingTest n split ≤ n := by
  rw [nRatingTest, Int.toNat_le]
  have h2 : (n : ℚ) * (1 - split) ≤ (n : ℚ) := by
    nlinarith [Nat.cast_nonneg (α := ℚ) n]
  calc ⌊(n : ℚ) * (1 - split)⌋ ≤ ⌊(n : ℚ)⌋ := Int.floor_le_floor h2
    _ = (n : ℤ) := Int.floor_natCast n

theorem rowsOf_self_eq_nil {t : List Row} {u : Nat}
    (h : u ∉ t.map Row.user_id) : rowsOf t u = [] := by
  apply rowsOf_eq_nil
  intro r hr he
  exact h (List.mem_map.mpr ⟨r, hr, he⟩)

/-- Claim C3: the time-based splitter drops a user with fewer than
`min_train + min_test` interactions entirely; for every kept user it
sorts that user's interactions by timestamp, assigns the most recent
`floor(n * (1 - split))` interactions to the test set and the earliest
remaining ones to the train set, and every kept interaction belongs to
exactly one of train/test (their concatenation is a permutation of the
user's rows). -/
theorem C3_time_splitter (t : List Row) (split : ℚ) (minS : Nat) (u : Nat)
    (h0 : 0 ≤ split) :
    ((rowsOf t u).length < minS →
      rowsOf (trainRows t split minS) u = [] ∧
      rowsOf (testRows t split minS) u = []) ∧
    (minS ≤ (rowsOf t u).length →
      nRatingTest (rowsOf t u).length split ≤ (rowsOf t u).length ∧
      rowsOf (trainRows t split minS) u =
        (sortByTime (rowsOf t u)).take
          ((rowsOf t u).length - nRatingTest (rowsOf t u).length split) ∧
      rowsOf (testRows t split minS) u =
        (sortByTime (rowsOf t u)).drop
          ((rowsOf t u).length - nRatingTest (rowsOf t u).length split) ∧
      (sortByTime (rowsOf t u)).Pairwise (fun a b => a.timestamp ≤ b.timestamp) ∧
      List.Perm
        (rowsOf (trainRows t split minS) u ++ rowsOf (testRows t split minS) u)
        (rowsOf t u)) := by
  constructor
  · intro hlt
    have hnk : u ∉ keptUsers t minS :=
      fun hk => absurd (mem_keptUsers.mp hk).2 (Nat.not_le.mpr hlt)
    rw [rowsOf_trainRows, if_neg hnk, rowsOf_testRows, if_neg hnk]
    exact ⟨rfl, rfl⟩
  · intro hge
    by_cases hmem : u ∈ t.map Row.user_id
    · have hk : u ∈ keptUsers t minS := mem_keptUsers.mpr ⟨hmem, hge⟩
      have htr : rowsOf (trainRows t split minS) u =
          (splitUser (rowsOf t u) split).1 := by
        rw [rowsOf_trainRows, if_pos hk]
      have hte : rowsOf (testRows t split minS) u =
          (splitUser (rowsOf t u) split).2 := by
        rw [rowsOf_testRows, if_pos hk]
      have hlen : (sortByTime (rowsOf t u)).length = (rowsOf t u).length :=
        (perm_sortByTime _).length_eq
      refine ⟨nRatingTest_le _ h0, ?_, ?_, sortByTime_pairwise _, ?_⟩
      · rw [htr]
        simp only [splitUser]
        rw [hlen]
      · rw [hte]
        simp only [splitUser]
        rw [hlen]
      · rw [htr, hte]
        simp only [splitUser]
        rw [List.take_append_drop]
        exact perm_sortByTime _
    · have hnil : rowsOf t u = [] := rowsOf_self_eq_nil hmem
      have hnk : u ∉ keptUsers t minS := fun hk => hmem (mem_keptUsers.mp hk).1
      have h1 : rowsOf (trainRows t split minS) u = [] := by
        rw [rowsOf_trainRows, if_neg hnk]
      have h2 : rowsOf (testRows t split minS) u = [] := by
        rw [rowsOf_testRows, if_neg hnk]
      rw [h1, h2, hnil]
      refine ⟨nRatingTest_le _ h0, ?_, ?_, ?_, ?_⟩
      · simp [sortByTime, sortBy]
      · simp [sortByTime, sortBy]
      · simp [sortByTime, sortBy]
      · simp

/-- Witness for C3: on the five-interaction table `W3t` with
`split = 0.8` and `min_samples = 2`, user 0 is kept and their train and
test rows together are a permutation of their original rows. -/
theorem C3_witness :
    2 ≤ (rowsOf W3t 0).length ∧
    List.Perm
      (rowsOf (trainRows W3t 0.8 2) 0 ++ rowsOf (testRows W3t 0.8 2) 0)
      (rowsOf W3t 0) :=
  ⟨by decide,
   ((C3_time_splitter W3t 0.8 2 0 (by norm_num)).2 (by decide)).2.2.2.2⟩

/-- Claim C10: when every user of the input table has fewer than
`min_samples` interactions (in particular on an empty table), the
time-based splitter raises instead of returning an empty split. -/
theorem C10_splitter_raises (t : List Row) (split : ℚ) (minS : Nat)
    (h : ∀ u ∈ t.map Row.user_id, (rowsOf t u).length < minS) :
    user_timestamp t split minS =
      Except.error "objects to concatenate is empty" := by
  have hk : keptUsers t minS = [] := by
    rw [keptUsers, List.filter_eq_nil_iff]
    intro u hu
    have hu2 : u ∈ t.map Row.user_id := by
      have := (mem_sortBy _ _ u).mp hu
      exact List.mem_dedup.mp this
    simpa using Nat.not_le.mpr (h u hu2)
  rw [user_timestamp, if_pos hk]

/-- Witness for C10: on the one-row table `W10t` with threshold 2, the
splitter fails. -/
theorem C10_witness :
    user_timestamp W10t 0.8 2 =
      Except.error "objects to concatenate is empty" :=
  C10_splitter_raises W10t 0.8 2 (by decide)

/-- Claim C1: the Group Representation Estimator maps every association
row to `minority = gender_1` with missing values replaced by 1.0 and
`majority = gender_2` with missing values replaced by 0.0; as a
consequence there are rows whose two shares do not sum to 1. -/
theorem C1_estimator_defaults :
    (∀ tbl : List AssocRow, genderItemAssociation tbl = tbl.map estimateRow) ∧
    (∀ a : AssocRow,
      (estimateRow a).item_id = a.item_id ∧
      (estimateRow a).minority = a.gender_1.getD 1 ∧
      (estimateRow a).majority = a.gender_2.getD 0) ∧
    (∃ a : AssocRow,
      (estimateRow a).minority + (estimateRow a).majority ≠ 1) := by
  refine ⟨fun tbl => rfl, fun a => ⟨rfl, ?_, ?_⟩,
    ⟨{ item_id := 0, gender_1 := none, gender_2 := some 1 }, ?_⟩⟩
  · cases h : a.gender_1 with
    | none => simp [estimateRow, applyMinorityDefault, h]
    | some v => simp [estimateRow, applyMinorityDefault, h]
  · cases h : a.gender_2 with
    | none => simp [estimateRow, applyMajorityDefault, h]
    | some v => simp [estimateRow, applyMajorityDefault, h]
  · show applyMinorityDefault none + applyMajorityDefault (some 1) ≠ 1
    show (1 : ℚ) + 1 ≠ 1
    norm_num

/-- Claim C7: for a user with an empty test set, NDCG is 0 at every
cutoff, whatever the ranked list and the rank-discount function. -/
theorem C7_ndcg_empty_test (disc : Nat → ℚ) (ranked : List Nat) (k : Nat) :
    ndcgWith disc ranked [] k = 0 := by
  simp [ndcgWith]

/-- Counterexample for C2: with no duplicates at all, the visible
`train['rating'] = 1.0` assignment in `run_with_upsampling` still
rewrites the original row's 5-star rating to 1.0, so the original rows
do not keep their prior field values. -/
theorem C2_counterexample :
    run_with_upsampling_train [C2row] [] ≠ [C2row] ∧
    (run_with_upsampling_train [C2row] []).map Row.rating = [1] ∧
    C2row.rating = 5 := by
  refine ⟨by decide, by decide, rfl⟩

/-- Claim C2 (amended): the upsampling stage appends duplicate rows and
removes none, but the subsequent `train['rating'] = 1.0` sets the
rating of every row of the augmented set (originals included) to 1.0,
preserving all other fields. -/
theorem C2_upsampling_append (t dups : List Row) :
    run_with_upsampling_train t dups = setRatingOne t ++ setRatingOne dups ∧
    (run_with_upsampling_train t dups).length = t.length + dups.length ∧
    (∀ r ∈ run_with_upsampling_train t dups, r.rating = 1) ∧
    (∀ r : Row,
      ({ r with rating := 1 } : Row).user_id = r.user_id ∧
      ({ r with rating := 1 } : Row).item_id = r.item_id ∧
      ({ r with rating := 1 } : Row).timestamp = r.timestamp ∧
      ({ r with rating := 1 } : Row).type_id = r.type_id) := by
  refine ⟨?_, ?_, ?_, fun r => ⟨rfl, rfl, rfl, rfl⟩⟩
  · rw [run_with_upsampling_train, upsampleAppend, setRatingOne, setRatingOne,
      setRatingOne, List.map_append]
  · rw [run_with_upsampling_train, upsampleAppend, setRatingOne,
      List.length_map, List.length_append]
  · intro r hr
    rw [run_with_upsampling_train, setRatingOne] at hr
    rcases List.mem_map.mp hr with ⟨s, _, rfl⟩
    rfl

/-- Witness for C2 (amended): on a one-row training set with rating 5
and no duplicates, the output is the rating-rewritten original row, and
that output row carries rating 1. -/
theorem C2_witness :
    run_with_upsampling_train [C2row] [] =
      setRatingOne [C2row] ++ setRatingOne [] ∧
    ({ user_id := 0, item_id := 0, rating := 1, timestamp := 0,
       type_id := 0 } : Row).rating = 1 :=
  ⟨(C2_upsampling_append [C2row] []).1,
   (C2_upsampling_append [C2row] []).2.2.1 _ (by decide)⟩

/-- Claim C8: joining the interactions with the association table on
`item_id` is an inner merge: every surviving pair comes from an
interaction and a matching association row (so the minority default
applies only to items present in the table), every interaction with a
matching row survives, and an interaction whose item has no association
row is removed entirely. -/
theorem C8_inner_merge (data : List Row) (tbl : List AssocRow) :
    (∀ p ∈ mergeOnItem data (genderItemAssociation tbl),
      p.1 ∈ data ∧ ∃ a ∈ tbl, a.item_id = p.1.item_id ∧ p.2 = estimateRow a) ∧
    (∀ r ∈ data, ∀ a ∈ tbl, a.item_id = r.item_id →
      (r, estimateRow a) ∈ mergeOnItem data (genderItemAssociation tbl)) ∧
    (∀ r ∈ data, (∀ a ∈ tbl, a.item_id ≠ r.item_id) →
      ∀ p ∈ mergeOnItem data (genderItemAssociation tbl),
        p.1.item_id ≠ r.item_id) := by
  have hfwd : ∀ p ∈ mergeOnItem data (genderItemAssociation tbl),
      p.1 ∈ data ∧ ∃ a ∈ tbl, a.item_id = p.1.item_id ∧ p.2 = estimateRow a := by
    intro p hp
    rw [mergeOnItem] at hp
    rcases List.mem_flatMap.mp hp with ⟨r, hr, hp2⟩
    rcases List.mem_map.mp hp2 with ⟨g, hg, rfl⟩
    rcases List.mem_filter.mp hg with ⟨hg2, hcond⟩
    rw [genderItemAssociation] at hg2
    rcases List.mem_map.mp hg2 with ⟨a, ha, rfl⟩
    refine ⟨hr, a, ha, ?_, rfl⟩
    have : (estimateRow a).item_id = r.item_id := of_decide_eq_true hcond
    simpa [estimateRow] using this
  refine ⟨hfwd, ?_, ?_⟩
  · intro r hr a ha hitem
    rw [mergeOnItem]
    apply List.mem_flatMap.mpr
    refine ⟨r, hr, List.mem_map.mpr ⟨estimateRow a, ?_, rfl⟩⟩
    apply List.mem_filter.mpr
    refine ⟨List.mem_map.mpr ⟨a, ha, rfl⟩, ?_⟩
    apply decide_eq_true
    simpa [estimateRow] using hitem
  · intro r _ hnone p hp heq
    rcases (hfwd p hp).2 with ⟨a, ha, hai, _⟩
    exact hnone a ha (heq ▸ hai)

/-- Witness for C8: the interaction with item 10 joined with its
association row (whose `gender_1` is missing) survives the merge. -/
theorem C8_witness :
    (W8r0, estimateRow W8a) ∈ mergeOnItem W8data (genderItemAssociation W8tbl) :=
  (C8_inner_merge W8data W8tbl).2.1 W8r0 (by decide) W8a (by decide) (by decide)

theorem argmaxBy_mem {f : Nat → ℚ} :
    ∀ {l : List Nat} {y : Nat}, argmaxBy f l = some y → y ∈ l := by
  intro l
  induction l with
  | nil => intro y h; cases h
  | cons x xs ih =>
    intro y h
    cases hm : argmaxBy f xs with
    | none =>
      simp only [argmaxBy, hm] at h
      cases h
      exact List.mem_cons_self x xs
    | some z =>
      simp only [argmaxBy, hm] at h
      by_cases hlt : f x < f z
      · rw [if_pos hlt] at h
        cases h
        exact List.mem_cons_of_mem x (ih hm)
      · rw [if_neg hlt] at h
        cases h
        exact List.mem_cons_self x xs

theorem argmaxBy_eq_head {f : Nat → ℚ} {x : Nat} {xs : List Nat}
    (h : ∀ y ∈ xs, f y ≤ f x) : argmaxBy f (x :: xs) = some x := by
  cases hm : argmaxBy f xs with
  | none => simp only [argmaxBy, hm]
  | some z =>
    simp only [argmaxBy, hm]
    rw [if_neg (not_lt_of_le (h z (argmaxBy_mem hm)))]

theorem rerank_zero_aux (rel : Nat → ℚ) (dv : List Nat → Nat → ℚ) :
    ∀ (k : Nat) (pool chosen : List Nat),
      pool.Pairwise (fun a b => rel b ≤ rel a) →
      rerank 0 rel dv k pool chosen = chosen ++ pool.take k := by
  intro k
  induction k with
  | zero =>
    intro pool chosen _
    simp [rerank]
  | succ k ih =>
    intro pool chosen h
    cases pool with
    | nil => simp [rerank, xquadSelect, argmaxBy]
    | cons x xs =>
      rcases List.pairwise_cons.mp h with ⟨hx, hxs⟩
      have hsel : xquadSelect 0 rel dv chosen (x :: xs) = some x := by
        rw [xquadSelect]
        apply argmaxBy_eq_head
        intro y hy
        have hr : rel y ≤ rel x := hx y hy
        simp only [sub_zero, one_mul, zero_mul, add_zero]
        exact hr
      simp only [rerank, hsel, List.erase_cons_head]
      rw [ih xs (chosen ++ [x]) hxs, List.take_succ_cons,
        List.append_assoc, List.singleton_append]

/-- Claim C5: with trade-off weight λ = 0, the xQuad-style greedy
re-ranker applied to a relevance-sorted candidate pool returns exactly
the first `k` candidates of that pool, i.e. the original top-k list,
whatever the diversity term. -/
theorem C5_reranker_identity (rel : Nat → ℚ) (dv : List Nat → Nat → ℚ)
    (k : Nat) (pool : List Nat)
    (hs : pool.Pairwise (fun a b => rel b ≤ rel a)) :
    rerank 0 rel dv k pool [] = pool.take k := by
  have h := rerank_zero_aux rel dv k pool [] hs
  simpa using h

/-- Witness for C5: on the pool `[0, 1, 2]` sorted by the concrete
relevance `W5rel`, re-ranking with λ = 0 and cutoff 2 returns the
original top-2 prefix. -/
theorem C5_witness :
    List.Pairwise W5ge [0, 1, 2] ∧
    rerank 0 W5rel W5dv 2 [0, 1, 2] [] = List.take 2 [0, 1, 2] :=
  ⟨by decide, C5_reranker_identity W5rel W5dv 2 [0, 1, 2] (by decide)⟩

/-- Claim C4: calling `predict` before `train`, or `test` before
`predict`, fails fast with a state-precondition error; in the supported
order a fresh model trains to Trained, predicts the relevance matrix
moving to Predicted, and computes the metrics moving to Evaluated. -/
theorem C4_state_machine (uE iE : List (List ℚ)) (ts : List (Nat × Nat))
    (disc : Nat → ℚ) (cutoffs : List Nat) :
    (∃ e, (Model.init uE iE ts).predict = Except.error e) ∧
    (∃ e, (Model.init uE iE ts).test disc cutoffs = Except.error e) ∧
    (∃ m1 m2 m3 : Model,
      (Model.init uE iE ts).train = Except.ok m1 ∧ m1.state = .trained ∧
      (∃ e, m1.test disc cutoffs = Except.error e) ∧
      m1.predict = Except.ok m2 ∧ m2.state = .predicted ∧
      m2.predictions = some (predMatrix m1) ∧
      m2.test disc cutoffs = Except.ok m3 ∧ m3.state = .evaluated ∧
      m3.metricsBag = some (metricsOf disc m2 cutoffs)) := by
  refine ⟨⟨"predict: the model must be trained first", rfl⟩,
    ⟨"test: the model must have predictions first", rfl⟩, ?_⟩
  let m1 : Model := { Model.init uE iE ts with state := .trained }
  let m2 : Model :=
    { m1 with state := .predicted, predictions := some (predMatrix m1) }
  let m3 : Model :=
    { m2 with state := .evaluated,
              metricsBag := some (metricsOf disc m2 cutoffs) }
  exact ⟨m1, m2, m3, rfl, rfl,
    ⟨"test: the model must have predictions first", rfl⟩,
    rfl, rfl, rfl, rfl, rfl, rfl⟩

theorem mem_sortedUnique {vals : List Nat} {v : Nat} :
    v ∈ sortedUnique vals ↔ v ∈ vals := by
  rw [sortedUnique, mem_sortBy, List.mem_dedup]

theorem catCode_lt {vals : List Nat} {v : Nat} (h : v ∈ vals) :
    catCode vals v < vals.dedup.length := by
  have h2 : v ∈ sortedUnique vals := mem_sortedUnique.mpr h
  have h3 := List.indexOf_lt_length.mpr h2
  have h4 : (sortedUnique vals).length = vals.dedup.length := by
    rw [sortedUnique, length_sortBy]
  rw [catCode]
  rw [h4] at h3
  exact h3

theorem catCode_inj {vals : List Nat} {a b : Nat}
    (ha : a ∈ vals) (hb : b ∈ vals) :
    catCode vals a = catCode vals b ↔ a = b :=
  List.indexOf_inj (mem_sortedUnique.mpr ha) (mem_sortedUnique.mpr hb)

theorem mem_taggedRows_snd {t : List Row} {split : ℚ} {minS : Nat}
    {p : Row × String} (h : p ∈ taggedRows t split minS) :
    p.2 = "train" ∨ p.2 = "test" := by
  rw [taggedRows] at h
  rcases List.mem_append.mp h with h2 | h2
  · rcases List.mem_map.mp h2 with ⟨r, _, rfl⟩
    exact Or.inl rfl
  · rcases List.mem_map.mp h2 with ⟨r, _, rfl⟩
    exact Or.inr rfl

/-- Claim C6: every row of the persisted split artifact carries a `set`
tag in `{train, test}`, user and item codes below the number of
distinct original users/items, original-id columns equal to the
pre-remap id columns, codes computed from the originals by the sorted
categorical coding, and identical codes exactly for identical
originals. -/
theorem C6_split_artifact (t : List Row) (split : ℚ) (minS : Nat)
    (out : List SplitRow)
    (hout : user_timestamp t split minS = Except.ok out) :
    (∀ sr ∈ out, sr.set = "train" ∨ sr.set = "test") ∧
    out.map SplitRow.user_id_original =
      (taggedRows t split minS).map (fun p => p.1.user_id) ∧
    out.map SplitRow.item_id_original =
      (taggedRows t split minS).map (fun p => p.1.item_id) ∧
    (∀ sr ∈ out,
      sr.user_id =
        catCode ((taggedRows t split minS).map (fun p => p.1.user_id))
          sr.user_id_original ∧
      sr.item_id =
        catCode ((taggedRows t split minS).map (fun p => p.1.item_id))
          sr.item_id_original) ∧
    (∀ sr ∈ out,
      sr.user_id < ((out.map SplitRow.user_id_original).dedup).length ∧
      sr.item_id < ((out.map SplitRow.item_id_original).dedup).length) ∧
    (∀ sr1 ∈ out, ∀ sr2 ∈ out,
      (sr1.user_id_original = sr2.user_id_original ↔
        sr1.user_id = sr2.user_id) ∧
      (sr1.item_id_original = sr2.item_id_original ↔
        sr1.item_id = sr2.item_id)) := by
  rw [user_timestamp] at hout
  by_cases hk : keptUsers t minS = []
  · rw [if_pos hk] at hout
    cases hout
  · rw [if_neg hk] at hout
    have hout2 := Except.ok.inj hout
    subst hout2
    have husers : ∀ sr ∈ (taggedRows t split minS).map (fun p =>
        ({ user_id := catCode ((taggedRows t split minS).map (fun q => q.1.user_id)) p.1.user_id
           item_id := catCode ((taggedRows t split minS).map (fun q => q.1.item_id)) p.1.item_id
           rating := p.1.rating
           timestamp := p.1.timestamp
           type_id := p.1.type_id
           set := p.2
           user_id_original := p.1.user_id
           item_id_original := p.1.item_id } : SplitRow)),
        ∃ p ∈ taggedRows t split minS,
          sr.set = p.2 ∧ sr.user_id_original = p.1.user_id ∧
          sr.item_id_original = p.1.item_id ∧
          sr.user_id = catCode ((taggedRows t split minS).map (fun q => q.1.user_id)) p.1.user_id ∧
          sr.item_id = catCode ((taggedRows t split minS).map (fun q => q.1.item_id)) p.1.item_id := by
      intro sr hsr
      rcases List.mem_map.mp hsr with ⟨p, hp, rfl⟩
      exact ⟨p, hp, rfl, rfl, rfl, rfl, rfl⟩
    refine ⟨?_, ?_, ?_, ?_, ?_, ?_⟩
    · intro sr hsr
      rcases husers sr hsr with ⟨p, hp, hset, _⟩
      rw [hset]
      exact mem_taggedRows_snd hp
    · rw [List.map_map]
      rfl
    · rw [List.map_map]
      rfl
    · intro sr hsr
      rcases husers sr hsr with ⟨p, hp, _, hu, hi, hcu, hci⟩
      exact ⟨hu ▸ hcu, hi ▸ hci⟩
    · intro sr hsr
      rcases husers sr hsr with ⟨p, hp, _, hu, hi, hcu, hci⟩
      have hmemu : p.1.user_id ∈ (taggedRows t split minS).map (fun q => q.1.user_id) :=
        List.mem_map.mpr ⟨p, hp, rfl⟩
      have hmemi : p.1.item_id ∈ (taggedRows t split minS).map (fun q => q.1.item_id) :=
        List.mem_map.mpr ⟨p, hp, rfl⟩
      constructor
      · have hcol : (List.map (fun p =>
            ({ user_id := catCode ((taggedRows t split minS).map (fun q => q.1.user_id)) p.1.user_id
               item_id := catCode ((taggedRows t split minS).map (fun q => q.1.item_id)) p.1.item_id
               rating := p.1.rating
               timestamp := p.1.timestamp
               type_id := p.1.type_id
               set := p.2
               user_id_original := p.1.user_id
               item_id_original := p.1.item_id } : SplitRow)) (taggedRows t split minS)).map
            SplitRow.user_id_original =
            (taggedRows t split minS).map (fun q => q.1.user_id) := by
          rw [List.map_map]
          rfl
        rw [hcol, hcu]
        exact catCode_lt hmemu
      · have hcol : (List.map (fun p =>
            ({ user_id := catCode ((taggedRows t split minS).map (fun q => q.1.user_id)) p.1.user_id
               item_id := catCode ((taggedRows t split minS).map (fun q => q.1.item_id)) p.1.item_id
               rating := p.1.rating
               timestamp := p.1.timestamp
               type_id := p.1.type_id
               set := p.2
               user_id_original := p.1.user_id
               item_id_original := p.1.item_id } : SplitRow)) (taggedRows t split minS)).map
            SplitRow.item_id_original =
            (taggedRows t split minS).map (fun q => q.1.item_id) := by
          rw [List.map_map]
          rfl
        rw [hcol, hci]
        exact catCode_lt hmemi
    · intro sr1 hsr1 sr2 hsr2
      rcases husers sr1 hsr1 with ⟨p1, hp1, _, hu1, hi1, hcu1, hci1⟩
      rcases husers sr2 hsr2 with ⟨p2, hp2, _, hu2, hi2, hcu2, hci2⟩
      have hmu1 : p1.1.user_id ∈ (taggedRows t split minS).map (fun q => q.1.user_id) :=
        List.mem_map.mpr ⟨p1, hp1, rfl⟩
      have hmu2 : p2.1.user_id ∈ (taggedRows t split minS).map (fun q => q.1.user_id) :=
        List.mem_map.mpr ⟨p2, hp2, rfl⟩
      have hmi1 : p1.1.item_id ∈ (taggedRows t split minS).map (fun q => q.1.item_id) :=
        List.mem_map.mpr ⟨p1, hp1, rfl⟩
      have hmi2 : p2.1.item_id ∈ (taggedRows t split minS).map (fun q => q.1.item_id) :=
        List.mem_map.mpr ⟨p2, hp2, rfl⟩
      constructor
      · rw [hu1, hu2, hcu1, hcu2]
        exact (catCode_inj hmu1 hmu2).symm
      · rw [hi1, hi2, hci1, hci2]
        exact (catCode_inj hmi1 hmi2).symm

theorem C9ok : user_timestamp C9raw 0.5 2 = Except.ok C9out := by
  have h2 : nRatingTest 2 0.5 = 1 := by norm_num [nRatingTest]
  have hst : sortByTime C9raw = C9raw := by decide
  have h3 : rowsOf C9raw 3 = C9raw := by decide
  have hsp : splitUser (rowsOf C9raw 3) 0.5 = ([C9r0], [C9r1]) := by
    simp only [splitUser, h3, hst]
    have hl : C9raw.length = 2 := rfl
    rw [hl, h2]
    decide
  have hk : keptUsers C9raw 2 = [3] := by decide
  have htr : trainRows C9raw 0.5 2 = [C9r0] := by
    simp only [trainRows, hk, List.flatMap_cons, List.flatMap_nil, hsp,
      List.append_nil]
  have hte : testRows C9raw 0.5 2 = [C9r1] := by
    simp only [testRows, hk, List.flatMap_cons, List.flatMap_nil, hsp,
      List.append_nil]
  have htag : taggedRows C9raw 0.5 2 = [(C9r0, "train"), (C9r1, "test")] := by
    simp only [taggedRows, htr, hte]
    rfl
  simp only [user_timestamp, hk, htag]
  rw [if_neg (by decide : ¬([3] : List Nat) = [])]
  exact congrArg Except.ok (by decide)

/-- Claim C9 (code bug): on the reachable split artifact `C9out`, the
category vector built by `drop_duplicates` is in first-occurrence
order, not dense-id order: position 0 holds category 7, yet the item
with dense id 0 has category 9. -/
theorem C9_category_misaligned :
    user_timestamp C9raw 0.5 2 = Except.ok C9out ∧
    category_per_item C9out = [7, 9] ∧
    C9out.map SplitRow.item_id = [1, 0] ∧
    C9out.map SplitRow.type_id = [7, 9] ∧
    (7 : Nat) ≠ 9 :=
  ⟨C9ok, by decide, by decide, by decide, by decide⟩

/-- Witness for C6: on the artifact `C9out` produced from `C9raw`, the
first row's user and item codes are below the distinct-original
counts. -/
theorem C6_witness :
    C9sr0.user_id < ((C9out.map SplitRow.user_id_original).dedup).length ∧
    C9sr0.item_id < ((C9out.map SplitRow.item_id_original).dedup).length :=
  (C6_split_artifact C9raw 0.5 2 C9out C9ok).2.2.2.2.1 C9sr0 (by decide)

end ICDM

